import Mathlib

/-!
# Verification of the korean-practice-hub TTS asset-synchronization pipeline

Shallow embedding of `src/scripts/build_tts.py` (with `src/generate_tts.py`
for the shared filename deriver).  Pure Python functions become Lean
functions; the file-system effects of `main` become explicit state passing
over finite sets of filenames; the `asyncio.Semaphore(5)` admission gate
becomes a labelled transition system.
-/

/-! ## MD5 (the `hashlib.md5(...).hexdigest()` dependency of `repo_filename`)

Faithful model of RFC 1321 MD5 over byte lists, as computed by Python's
`hashlib.md5`.  All 32-bit machine arithmetic is `Nat` arithmetic taken
modulo `2 ^ 32`.
-/

/-- Truncate to a 32-bit word. -/
def w32 (n : Nat) : Nat := n % 4294967296

/-- 32-bit bitwise complement. -/
def bnot32 (n : Nat) : Nat := Nat.xor n 4294967295

/-- 32-bit left rotation. -/
def rotl (x s : Nat) : Nat := Nat.lor (w32 (x <<< s)) (x >>> (32 - s))

/-- The four least-significant bytes of a word, little-endian. -/
def leBytes4 (n : Nat) : List Nat :=
  [n % 256, n / 256 % 256, n / 65536 % 256, n / 16777216 % 256]

/-- The eight least-significant bytes of a number, little-endian
(the 64-bit message bit-length field of MD5 padding). -/
def leBytes8 (n : Nat) : List Nat :=
  [n % 256, n / 256 % 256, n / 65536 % 256, n / 16777216 % 256,
   n / 4294967296 % 256, n / 1099511627776 % 256,
   n / 281474976710656 % 256, n / 72057594037927936 % 256]

/-- MD5 round constants `K[i] = floor(abs(sin(i+1)) * 2^32)`. -/
def md5K : List Nat :=
  [0xd76aa478, 0xe8c7b756, 0x242070db, 0xc1bdceee, 0xf57c0faf, 0x4787c62a,
   0xa8304613, 0xfd469501, 0x698098d8, 0x8b44f7af, 0xffff5bb1, 0x895cd7be,
   0x6b901122, 0xfd987193, 0xa679438e, 0x49b40821, 0xf61e2562, 0xc040b340,
   0x265e5a51, 0xe9b6c7aa, 0xd62f105d, 0x02441453, 0xd8a1e681, 0xe7d3fbc8,
   0x21e1cde6, 0xc33707d6, 0xf4d50d87, 0x455a14ed, 0xa9e3e905, 0xfcefa3f8,
   0x676f02d9, 0x8d2a4c8a, 0xfffa3942, 0x8771f681, 0x6d9d6122, 0xfde5380c,
   0xa4beea44, 0x4bdecfa9, 0xf6bb4b60, 0xbebfbc70, 0x289b7ec6, 0xeaa127fa,
   0xd4ef3085, 0x04881d05, 0xd9d4d039, 0xe6db99e5, 0x1fa27cf8, 0xc4ac5665,
   0xf4292244, 0x432aff97, 0xab9423a7, 0xfc93a039, 0x655b59c3, 0x8f0ccc92,
   0xffeff47d, 0x85845dd1, 0x6fa87e4f, 0xfe2ce6e0, 0xa3014314, 0x4e0811a1,
   0xf7537e82, 0xbd3af235, 0x2ad7d2bb, 0xeb86d391]

/-- MD5 per-round left-rotation amounts. -/
def md5S : List Nat :=
  [7, 12, 17, 22, 7, 12, 17, 22, 7, 12, 17, 22, 7, 12, 17, 22,
   5, 9, 14, 20, 5, 9, 14, 20, 5, 9, 14, 20, 5, 9, 14, 20,
   4, 11, 16, 23, 4, 11, 16, 23, 4, 11, 16, 23, 4, 11, 16, 23,
   6, 10, 15, 21, 6, 10, 15, 21, 6, 10, 15, 21, 6, 10, 15, 21]

/-- MD5 nonlinear round function for round `i`. -/
def md5F (b c d i : Nat) : Nat :=
  if i < 16 then Nat.lor (Nat.land b c) (Nat.land (bnot32 b) d)
  else if i < 32 then Nat.lor (Nat.land d b) (Nat.land (bnot32 d) c)
  else if i < 48 then Nat.xor (Nat.xor b c) d
  else Nat.xor c (Nat.lor b (bnot32 d))

/-- MD5 message-word schedule index for round `i`. -/
def md5G (i : Nat) : Nat :=
  if i < 16 then i
  else if i < 32 then (5 * i + 1) % 16
  else if i < 48 then (3 * i + 5) % 16
  else (7 * i) % 16

/-- One MD5 round on the state quadruple `(a, b, c, d)`. -/
def md5Step (M : Nat → Nat) (i : Nat) : Nat × Nat × Nat × Nat → Nat × Nat × Nat × Nat
  | (a, b, c, d) =>
    let f := w32 (md5F b c d i + a + md5K.getD i 0 + M (md5G i))
    (d, w32 (b + rotl f (md5S.getD i 0)), b, c)

/-- Run rounds `i, i+1, ...` for `fuel` steps. -/
def md5Loop (M : Nat → Nat) : Nat → Nat → Nat × Nat × Nat × Nat → Nat × Nat × Nat × Nat
  | 0, _, st => st
  | fuel + 1, i, st => md5Loop M fuel (i + 1) (md5Step M i st)

/-- Compress one 64-byte chunk into the running state. -/
def md5Compress (st : Nat × Nat × Nat × Nat) (chunk : List Nat) : Nat × Nat × Nat × Nat :=
  let M : Nat → Nat := fun g =>
    chunk.getD (4 * g) 0 + 256 * chunk.getD (4 * g + 1) 0 +
    65536 * chunk.getD (4 * g + 2) 0 + 16777216 * chunk.getD (4 * g + 3) 0
  let r := md5Loop M 64 0 st
  (w32 (st.1 + r.1), w32 (st.2.1 + r.2.1), w32 (st.2.2.1 + r.2.2.1), w32 (st.2.2.2 + r.2.2.2))

/-- MD5 padding: a `0x80` byte, zeros to 56 mod 64, then the 64-bit
little-endian bit length of the original message. -/
def md5Pad (msg : List Nat) : List Nat :=
  let padLen := (119 - msg.length % 64) % 64
  msg ++ [0x80] ++ List.replicate padLen 0 ++ leBytes8 ((msg.length * 8) % 18446744073709551616)

/-- Fold `n` chunks of 64 bytes through the compression function. -/
def md5Chunks : Nat → List Nat → Nat × Nat × Nat × Nat → Nat × Nat × Nat × Nat
  | 0, _, st => st
  | n + 1, bytes, st => md5Chunks n (bytes.drop 64) (md5Compress st (bytes.take 64))

/-- MD5 initial state. -/
def md5Init : Nat × Nat × Nat × Nat := (0x67452301, 0xefcdab89, 0x98badcfe, 0x10325476)

/-- The 16-byte MD5 digest of a byte list. -/
def md5Digest (msg : List Nat) : List Nat :=
  let padded := md5Pad msg
  let r := md5Chunks (padded.length / 64) padded md5Init
  leBytes4 r.1 ++ leBytes4 r.2.1 ++ leBytes4 r.2.2.1 ++ leBytes4 r.2.2.2

/-- Lowercase hexadecimal digit character, as produced by `hexdigest()`. -/
def hexChar (d : Nat) : Char := Char.ofNat (if d < 10 then 48 + d else 87 + d)

/-- The 32-character hex digest of a byte list, as a character list
(Python `hashlib.md5(bs).hexdigest()`). -/
def md5HexList (msg : List Nat) : List Char :=
  (md5Digest msg).flatMap (fun b => [hexChar (b / 16), hexChar (b % 16)])

/-! ## UTF-8 encoding (Python `str.encode('utf-8')`) -/

/-- UTF-8 encoding of a single code point. -/
def utf8EncodeCharNat (c : Nat) : List Nat :=
  if c < 0x80 then [c]
  else if c < 0x800 then [0xC0 + c / 64, 0x80 + c % 64]
  else if c < 0x10000 then [0xE0 + c / 4096, 0x80 + c / 64 % 64, 0x80 + c % 64]
  else [0xF0 + c / 262144, 0x80 + c / 4096 % 64, 0x80 + c / 64 % 64, 0x80 + c % 64]

/-- UTF-8 bytes of a string (`text.encode('utf-8')`). -/
def utf8Bytes (s : String) : List Nat :=
  s.data.flatMap (fun c => utf8EncodeCharNat c.toNat)

/-! ## The filename deriver

`build_tts.py` line 113-116 (`repo_filename`), identical to
`generate_tts.py` line 121-123 (`text_to_filename`):

```python
def repo_filename(text, index):
    h = hashlib.md5(text.encode('utf-8')).hexdigest()[:6]
    return f'{index:04d}_{h}.mp3'
```
-/

/-- Decimal digit character. -/
def digitChar (d : Nat) : Char :=
  match d with
  | 0 => '0' | 1 => '1' | 2 => '2' | 3 => '3' | 4 => '4'
  | 5 => '5' | 6 => '6' | 7 => '7' | 8 => '8' | _ => '9'

/-- Little-endian decimal digits, with an explicit structural fuel
argument (`n` itself suffices, since `n / 10 < n`). -/
def decDigitsAux : Nat → Nat → List Nat
  | 0, _ => []
  | _ + 1, 0 => []
  | fuel + 1, n + 1 => ((n + 1) % 10) :: decDigitsAux fuel ((n + 1) / 10)

/-- Little-endian decimal digits of a natural number. -/
def decDigits (n : Nat) : List Nat := decDigitsAux n n

/-- Decimal representation of a natural number, most significant digit
first (Python `str(n)` for a nonnegative int). -/
def decStrChars (n : Nat) : List Char :=
  if n = 0 then ['0'] else ((decDigits n).reverse).map digitChar

/-- `f'{n:04d}'`: the decimal representation zero-padded on the left to at
least four characters. -/
def pad4 (n : Nat) : String :=
  ⟨List.replicate (4 - (decStrChars n).length) '0' ++ decStrChars n⟩

/-- `hashlib.md5(text.encode('utf-8')).hexdigest()[:6]`: the first six hex
characters of the MD5 digest of the UTF-8 bytes of `text`. -/
def md5Hex6 (text : String) : String := ⟨(md5HexList (utf8Bytes text)).take 6⟩

/-- `repo_filename` from `build_tts.py`: `f'{index:04d}_{h}.mp3'` with `h`
the 6-hex-character MD5 fingerprint of the text. -/
def repo_filename (text : String) (index : Nat) : String :=
  pad4 index ++ "_" ++ md5Hex6 text ++ ".mp3"

/-! ## Text extraction (`extract_all_texts`, `build_tts.py` lines 38-110)

The vocabulary / sentences documents are modelled by structures holding
exactly the fields the extractor reads; `data.get(section, {})` defaults
are modelled by empty lists.  Optional JSON keys (`formE`, tenses,
`correct`, `kr` on sentences) are `Option` fields.
-/

/-- A record with a `kr` field. -/
structure KrEntry where
  kr : String
deriving DecidableEq

/-- A `places` record: `kr` plus optional `formE` / `formEseo` sub-records. -/
structure Place where
  kr : String
  formE : Option KrEntry
  formEseo : Option KrEntry

/-- A `verbs` record with optional `past` / `present` / `future` tenses. -/
structure Verb where
  past : Option String
  present : Option String
  future : Option String

/-- The `action` section. -/
structure ActionData where
  subjects : List KrEntry
  times : List KrEntry
  places : List Place
  objects : List KrEntry
  verbs : List Verb

/-- The `describe` section. -/
structure DescribeData where
  subjects : List KrEntry
  adjectives : List KrEntry
  adverbs : List KrEntry

/-- A flashcard category with its cards. -/
structure Category where
  cards : List KrEntry

/-- The `flashcards` section. -/
structure Flashcards where
  categories : List Category

/-- The `intro` section. -/
structure IntroData where
  topics : List KrEntry
  nouns : List KrEntry

/-- A quiz situation: optional `correct` answer plus `options`. -/
structure Situation where
  correct : Option String
  options : List String

/-- The `quiz` section. -/
structure QuizData where
  situations : List Situation

/-- The parsed `vocab.json` document (sections the extractor reads). -/
structure VocabData where
  action : ActionData
  describe : DescribeData
  flashcards : Flashcards
  intro : IntroData
  quiz : QuizData

/-- A sentence record; the extractor only reads an optional `kr` field. -/
structure Sentence where
  kr : Option String

/-- A chapter of `sentences.json`. -/
structure Chapter where
  sentences : List Sentence

/-- The parsed `sentences.json` document. -/
structure SentencesData where
  chapters : List Chapter

/-- `has_jongseong` (`build_tts.py` lines 31-35): whether a Korean
syllable character carries a final consonant. -/
def has_jongseong (c : Char) : Bool :=
  let code := c.toNat
  if code < 0xAC00 || code > 0xD7AF then false
  else (code - 0xAC00) % 28 != 0

/-- Object particle: `'을' if has_jongseong(kr[-1]) else '를'`. -/
def eulReul (kr : String) : String := if has_jongseong kr.back then "을" else "를"

/-- Subject particle: `'이' if has_jongseong(kr[-1]) else '가'`. -/
def iGa (kr : String) : String := if has_jongseong kr.back then "이" else "가"

/-- Copula ending: `'이에요' if has_jongseong(kr[-1]) else '예요'`. -/
def ieyoYeyo (kr : String) : String := if has_jongseong kr.back then "이에요" else "예요"

/-- All strings the extractor adds to its `texts` set, in source order.
Each `++` group mirrors one loop of `extract_all_texts`. -/
def extractedList (v : VocabData) (s : Option SentencesData) : List String :=
  v.action.subjects.map (·.kr)
  ++ v.action.times.map (·.kr)
  ++ v.action.places.flatMap (fun p =>
       [p.kr] ++ (p.formE.map (·.kr)).toList ++ (p.formEseo.map (·.kr)).toList)
  ++ v.action.objects.flatMap (fun o => [o.kr, o.kr ++ eulReul o.kr])
  ++ v.action.verbs.flatMap (fun vb => [vb.past, vb.present, vb.future].filterMap id)
  ++ v.describe.subjects.flatMap (fun q => [q.kr, q.kr ++ iGa q.kr])
  ++ v.describe.adjectives.map (·.kr)
  ++ v.describe.adverbs.map (·.kr)
  ++ v.flashcards.categories.flatMap (fun c => c.cards.map (·.kr))
  ++ v.intro.topics.map (·.kr)
  ++ v.intro.nouns.flatMap (fun n => [n.kr, n.kr ++ ieyoYeyo n.kr])
  ++ v.quiz.situations.flatMap (fun q => q.correct.toList ++ q.options)
  ++ (match s with
      | some sd => sd.chapters.flatMap (fun ch => ch.sentences.filterMap (·.kr))
      | none => [])

/-- Structural lexicographic comparison of character lists (Python's
code-point comparison of `str`). -/
def strLeb : List Char → List Char → Bool
  | [], _ => true
  | _ :: _, [] => false
  | x :: xs, y :: ys =>
    if x < y then true
    else if y < x then false
    else strLeb xs ys

/-- Python's `s1 <= s2` on strings: lexicographic by code point. -/
def pyLe (a b : String) : Bool := strLeb a.data b.data

/-- Insert a string into an already-sorted list, keeping it sorted. -/
def insertSorted (x : String) : List String → List String
  | [] => [x]
  | y :: ys => if pyLe x y then x :: y :: ys else y :: insertSorted x ys

/-- `sorted(...)` over distinct strings: the sorted materialization of a
list (insertion sort; Python's lexicographic code-point order coincides
with `String`'s linear order). -/
def pySorted (l : List String) : List String := l.foldr insertSorted []

/-- `extract_all_texts` (`build_tts.py` lines 38-110): collect every text
into a set, `texts.discard('')`, return `sorted(texts)`.  The indexing
`kr[-1]` in the object / describe-subject / intro-noun loops raises on an
empty `kr`, which the embedding surfaces as `Except.error`. -/
def extract_all_texts (v : VocabData) (s : Option SentencesData) :
    Except Unit (List String) :=
  if (v.action.objects.map (·.kr) ++ v.describe.subjects.map (·.kr)
      ++ v.intro.nouns.map (·.kr)).any (· == "") then
    .error ()
  else
    .ok (pySorted (((extractedList v s).dedup).filter (fun t => !(t == ""))))

/-! ## The main pipeline (`build_tts.py` lines 129-196)

File-system state is the finite set of filenames in the audio store
directory (`AUDIO_DIR`).  The reference store is a manifest (`Option`:
missing file / unreadable file / parsed JSON object as an association
list) plus the set of filenames present in `CENTRAL_AUDIO`.  Synthesis is
an oracle `synthOk : String → Bool` saying whether `edge_tts` succeeds for
a text.
-/

/-- The cache probe of `main` lines 152-159: `text in central_manifest`
and `os.path.exists(central_path)`. -/
def cacheHit (central : List (String × String)) (centralFiles : Finset String)
    (t : String) : Bool :=
  match central.lookup t with
  | some cf => decide (cf ∈ centralFiles)
  | none => false

/-- Result of the partition loop of `main` (lines 147-161): the fresh
manifest in insertion order, the copied items, and `to_generate`. -/
structure Partition where
  manifest : List (String × String)
  copied : List (String × String)
  toGen : List (String × String)

/-- The `for i, text in enumerate(texts)` loop of `main` (lines 147-161):
derive the filename, record the manifest entry, then either copy from the
central store (cache hit) or append to `to_generate`. -/
def mainLoop (central : List (String × String)) (centralFiles : Finset String) :
    Nat → List String → Partition
  | _, [] => ⟨[], [], []⟩
  | i, t :: ts =>
    let fname := repo_filename t i
    let rest := mainLoop central centralFiles (i + 1) ts
    if cacheHit central centralFiles t then
      ⟨(t, fname) :: rest.manifest, (t, fname) :: rest.copied, rest.toGen⟩
    else
      ⟨(t, fname) :: rest.manifest, rest.copied, (t, fname) :: rest.toGen⟩

/-- Loading the reference manifest (`main` lines 134-139).  `none`: the
file does not exist, `central_manifest` stays `{}`.  `some none`: the file
exists but `json.load` fails (unreadable / malformed), which raises and
aborts the run.  `some (some m)`: the parsed JSON object. -/
def loadCentral : Option (Option (List (String × String))) →
    Except Unit (List (String × String))
  | none => .ok []
  | some none => .error ()
  | some (some m) => .ok m

/-- Python `str.endswith(suffix)`. -/
def pyEndsWith (s suffix : String) : Bool := suffix.data.isSuffixOf s.data

/-- The orphan sweep of `main` (lines 177-183): delete every directory
entry whose name ends in `.mp3` and is not a value of the fresh manifest. -/
def sweep (dir : Finset String) (valid : Finset String) : Finset String :=
  dir.filter (fun f => ¬(pyEndsWith f ".mp3" = true ∧ f ∉ valid))

/-- Outcome of a run of `main`: whether it completed without an uncaught
exception, the final contents of the store directory, and the manifest
document if it was written. -/
structure RunResult where
  ok : Bool
  dir : Finset String
  manifestDoc : Option (List (String × String))

/-- The body of `main` once the central manifest has loaded as `central`:
the partition loop, the copies, the gathered generation tasks, and — when
no synthesis fails — the manifest write followed by the orphan sweep. -/
def mainRunOk (central : List (String × String)) (centralFiles : Finset String)
    (texts : List String) (initDir : Finset String) (synthOk : String → Bool) :
    RunResult :=
  if (mainLoop central centralFiles 0 texts).toGen.any (fun q => !synthOk q.1) then
    ⟨false,
      (initDir ∪ ((mainLoop central centralFiles 0 texts).copied.map (·.2)).toFinset)
        ∪ (((mainLoop central centralFiles 0 texts).toGen.filter
            (fun q => synthOk q.1)).map (·.2)).toFinset,
      none⟩
  else
    ⟨true,
      sweep
        (insert "manifest.json"
          ((initDir ∪ ((mainLoop central centralFiles 0 texts).copied.map (·.2)).toFinset)
            ∪ ((mainLoop central centralFiles 0 texts).toGen.map (·.2)).toFinset))
        (((mainLoop central centralFiles 0 texts).manifest.map (·.2)).toFinset),
      some (mainLoop central centralFiles 0 texts).manifest⟩

/-- `main` (`build_tts.py` lines 129-192), given the extracted `texts`.

* load the central manifest (an unreadable file raises);
* partition texts into copied / `to_generate`, deriving the manifest;
* copies place their target filenames in the store directory;
* `asyncio.gather` on the generation tasks: if any synthesis fails, the
  first exception propagates out of `gather` and aborts `main` — files of
  successful tasks remain, the manifest is never written and the orphan
  sweep never runs;
* otherwise `manifest.json` is written into the store directory and the
  orphan sweep removes every `.mp3` entry that is not a manifest value. -/
def mainRun (centralFile : Option (Option (List (String × String))))
    (centralFiles : Finset String) (texts : List String)
    (initDir : Finset String) (synthOk : String → Bool) : RunResult :=
  match loadCentral centralFile with
  | .error _ => ⟨false, initDir, none⟩
  | .ok central => mainRunOk central centralFiles texts initDir synthOk

/-- Content states observable at the manifest path while `main` lines
172-175 run: `open(mpath, 'w')` truncates the file in place, then
`json.dump` streams the serialized document into it (intermediate proper
prefixes of the document elided; the truncated state suffices). -/
def manifestWriteStates (doc : String) : List String := ["", doc]

/-- The write is atomic from a caller's perspective: every observable
state of the manifest path during the write is the prior content or the
complete document. -/
def atomicFromCallersPerspective (prior doc : String) : Prop :=
  ∀ s ∈ manifestWriteStates doc, s = prior ∨ s = doc

/-! ## The synthesis admission gate (`asyncio.Semaphore(5)`)

`main` line 167 creates `sem = asyncio.Semaphore(5)`; each `generate_tts`
task (lines 119-126) wraps its whole body in `async with sem`, so a task
acquires a slot before invoking `edge_tts` and the slot is released when
the body exits, normally or with an exception.  The gate is modelled as a
labelled transition system over task counts.
-/

/-- Scheduler state of the generation tasks: tasks blocked on
`sem.acquire`, the semaphore's free-slot count, tasks holding a slot
(in-flight synthesis calls), and completed tasks (success / failure). -/
structure GateState where
  waiting : Nat
  sem : Nat
  inflight : Nat
  doneOk : Nat
  doneErr : Nat
deriving DecidableEq

/-- Transitions of the admission gate: a waiting task may start only when
a semaphore slot is free (`start`); a completing task releases its slot
whether its synthesis succeeded (`finishOk`) or raised (`finishErr`). -/
inductive GateStep : GateState → GateState → Prop
  | start (w s i ok err : Nat) :
      GateStep ⟨w + 1, s + 1, i, ok, err⟩ ⟨w, s, i + 1, ok, err⟩
  | finishOk (w s i ok err : Nat) :
      GateStep ⟨w, s, i + 1, ok, err⟩ ⟨w, s + 1, i, ok + 1, err⟩
  | finishErr (w s i ok err : Nat) :
      GateStep ⟨w, s, i + 1, ok, err⟩ ⟨w, s + 1, i, ok, err + 1⟩

/-- Initial scheduler state for `n` generation tasks:
`sem = asyncio.Semaphore(5)`, nothing in flight. -/
def gateInit (n : Nat) : GateState := ⟨n, 5, 0, 0, 0⟩

/-- States reachable during a run with `n` generation tasks. -/
def GateReachable (n : Nat) (st : GateState) : Prop :=
  Relation.ReflTransGen GateStep (gateInit n) st

/-! ## Measurement helpers used only by the theorems -/

/-- Lowercase-hex-digit test (`0-9` or `a-f`). -/
def isHexChar (c : Char) : Bool :=
  (48 ≤ c.toNat && c.toNat ≤ 57) || (97 ≤ c.toNat && c.toNat ≤ 102)

/-- Decode a most-significant-first decimal digit string. -/
def val4 (cs : List Char) : Nat := cs.foldl (fun a c => 10 * a + (c.toNat - 48)) 0

/-! ## Lemmas: the filename deriver -/

theorem decDigitsAux_eq (fuel n : Nat) (h : n ≤ fuel) :
    decDigitsAux fuel n = Nat.digits 10 n := by
  induction fuel generalizing n with
  | zero =>
    have h0 : n = 0 := Nat.le_zero.mp h
    subst h0
    simp [decDigitsAux]
  | succ fuel ih =>
    match n with
    | 0 => simp [decDigitsAux]
    | n + 1 =>
      have hlt : (n + 1) / 10 < n + 1 := Nat.div_lt_self (Nat.succ_pos n) (by norm_num)
      rw [show decDigitsAux (fuel + 1) (n + 1)
            = ((n + 1) % 10) :: decDigitsAux fuel ((n + 1) / 10) from rfl,
        ih ((n + 1) / 10) (by omega),
        ← Nat.digits_def' (by norm_num : (1 : Nat) < 10) (Nat.succ_pos n)]

theorem decDigits_eq (n : Nat) : decDigits n = Nat.digits 10 n :=
  decDigitsAux_eq n n le_rfl

theorem digitChar_isDigit (d : Nat) : (digitChar d).isDigit = true := by
  unfold digitChar
  split <;> decide

theorem digitChar_toNat (d : Nat) (h : d < 10) : (digitChar d).toNat = 48 + d := by
  interval_cases d <;> rfl

theorem decStrChars_digits (n : Nat) : ∀ c ∈ decStrChars n, c.isDigit = true := by
  intro c hc
  unfold decStrChars at hc
  split at hc
  · simp only [List.mem_singleton] at hc
    subst hc; decide
  · simp only [List.mem_map] at hc
    obtain ⟨d, _, rfl⟩ := hc
    exact digitChar_isDigit d

theorem pad4_digits (n : Nat) : ∀ c ∈ (pad4 n).data, c.isDigit = true := by
  intro c hc
  unfold pad4 at hc
  simp only [List.mem_append, List.mem_replicate] at hc
  rcases hc with h | h
  · rw [h.2]; decide
  · exact decStrChars_digits n c h

theorem foldl_zero_replicate (k : Nat) :
    (List.replicate k '0').foldl (fun a c => 10 * a + (c.toNat - 48)) 0 = 0 := by
  induction k with
  | zero => rfl
  | succ k ih => simpa [List.replicate_succ] using ih

theorem foldl_map_digitChar (D : List Nat) (hD : ∀ d ∈ D, d < 10) (a : Nat) :
    (D.map digitChar).foldl (fun a c => 10 * a + (c.toNat - 48)) a
      = D.foldl (fun a d => 10 * a + d) a := by
  induction D generalizing a with
  | nil => rfl
  | cons d D ih =>
    have hd : d < 10 := hD d (List.mem_cons_self d D)
    simp only [List.map_cons, List.foldl_cons, digitChar_toNat d hd]
    rw [ih (fun x hx => hD x (List.mem_cons_of_mem d hx))]
    congr 1
    omega

theorem foldr_eq_ofDigits (D : List Nat) :
    D.foldr (fun d a => 10 * a + d) 0 = Nat.ofDigits 10 D := by
  induction D with
  | nil => simp [Nat.ofDigits]
  | cons d D ih => simp [Nat.ofDigits_cons, ih]; omega

theorem val4_decStrChars (n : Nat) : val4 (decStrChars n) = n := by
  unfold val4 decStrChars
  split
  · subst_vars; rfl
  · rw [decDigits_eq]
    rw [foldl_map_digitChar _ (fun d hd => Nat.digits_lt_base (by norm_num)
      (List.mem_reverse.mp hd)) 0]
    rw [List.foldl_reverse, foldr_eq_ofDigits]
    exact Nat.ofDigits_digits 10 n

theorem val4_pad4 (n : Nat) : val4 (pad4 n).data = n := by
  unfold pad4 val4
  rw [List.foldl_append]
  rw [show ((List.replicate (4 - (decStrChars n).length) '0').foldl
      (fun a c => 10 * a + (c.toNat - 48)) 0) = 0 from foldl_zero_replicate _]
  exact val4_decStrChars n

theorem decStrChars_len_le (n : Nat) (h : n < 10000) : (decStrChars n).length ≤ 4 := by
  unfold decStrChars
  split
  · simp
  · rw [decDigits_eq]
    simp only [List.length_map, List.length_reverse]
    by_contra hlen
    push_neg at hlen
    have h1 : (10 : Nat) ^ (Nat.digits 10 n).length ≤ 10 * n :=
      Nat.base_pow_length_digits_le 10 n (by norm_num) (by assumption)
    have h2 : (10 : Nat) ^ 5 ≤ 10 ^ (Nat.digits 10 n).length :=
      Nat.pow_le_pow_right (by norm_num) hlen
    omega

theorem pad4_len (n : Nat) (h : n < 10000) : (pad4 n).data.length = 4 := by
  have h1 := decStrChars_len_le n h
  have h2 : (decStrChars n).length ≠ 0 := by
    unfold decStrChars
    split
    · simp
    · rw [decDigits_eq]
      simp only [List.length_map, List.length_reverse, ne_eq,
        List.length_eq_zero, Nat.digits_eq_nil_iff_eq_zero]
      assumption
  unfold pad4
  simp only [List.length_append, List.length_replicate]
  omega

theorem takeWhile_digits_append (a r : List Char) (ha : ∀ x ∈ a, x.isDigit = true) :
    (a ++ '_' :: r).takeWhile (fun c => c.isDigit) = a := by
  induction a with
  | nil => rfl
  | cons x xs ih =>
    have hx : x.isDigit = true := ha x (List.mem_cons_self x xs)
    simp only [List.cons_append, List.takeWhile_cons, hx]
    simp only [if_true]
    rw [ih (fun y hy => ha y (List.mem_cons_of_mem x hy))]

theorem repo_filename_data (t : String) (i : Nat) :
    (repo_filename t i).data
      = (pad4 i).data ++ '_' :: ((md5Hex6 t).data ++ [ '.', 'm', 'p', '3' ]) := by
  unfold repo_filename
  simp [String.data_append]

/-- The index is recoverable from the derived filename: decode the leading
digit run. -/
theorem repo_filename_parse (t : String) (i : Nat) :
    val4 ((repo_filename t i).data.takeWhile (fun c => c.isDigit)) = i := by
  rw [repo_filename_data,
    takeWhile_digits_append _ _ (pad4_digits i), val4_pad4]

theorem repo_filename_inj_index (t u : String) (i j : Nat) (hij : i ≠ j) :
    repo_filename t i ≠ repo_filename u j := by
  intro h
  apply hij
  have := congrArg (fun s => val4 (String.data s |>.takeWhile (fun c => c.isDigit))) h
  simpa [repo_filename_parse] using this

theorem md5Digest_len (msg : List Nat) : (md5Digest msg).length = 16 := by
  simp [md5Digest, leBytes4]

theorem md5Digest_lt (msg : List Nat) : ∀ b ∈ md5Digest msg, b < 256 := by
  intro b hb
  unfold md5Digest leBytes4 at hb
  simp only [List.mem_append, List.mem_cons, List.not_mem_nil, or_false] at hb
  omega

theorem length_flatMap_two {α β : Type} (l : List α) (g h : α → β) :
    (l.flatMap (fun b => [g b, h b])).length = 2 * l.length := by
  induction l with
  | nil => rfl
  | cons x xs ih => simp only [List.flatMap_cons, List.length_append, ih,
      List.length_cons, List.length_nil]; omega

theorem md5HexList_len (msg : List Nat) : (md5HexList msg).length = 32 := by
  unfold md5HexList
  rw [length_flatMap_two, md5Digest_len]

theorem hexChar_isHex (d : Nat) (h : d < 16) : isHexChar (hexChar d) = true := by
  interval_cases d <;> decide

theorem md5HexList_hex (msg : List Nat) : ∀ c ∈ md5HexList msg, isHexChar c = true := by
  intro c hc
  unfold md5HexList at hc
  rw [List.mem_flatMap] at hc
  obtain ⟨b, hb, hc⟩ := hc
  have hblt := md5Digest_lt msg b hb
  simp only [List.mem_cons, List.not_mem_nil, or_false] at hc
  rcases hc with rfl | rfl
  · exact hexChar_isHex _ (by omega)
  · exact hexChar_isHex _ (Nat.mod_lt _ (by norm_num))

theorem md5Hex6_len (t : String) : (md5Hex6 t).data.length = 6 := by
  show ((md5HexList (utf8Bytes t)).take 6).length = 6
  rw [List.length_take, md5HexList_len]
  decide

theorem md5Hex6_hex (t : String) : ∀ c ∈ (md5Hex6 t).data, isHexChar c = true :=
  fun c hc => md5HexList_hex _ c (List.take_subset 6 _ hc)

theorem repo_filename_mp3 (t : String) (i : Nat) :
    pyEndsWith (repo_filename t i) ".mp3" = true := by
  unfold pyEndsWith
  rw [List.isSuffixOf_iff_suffix, repo_filename_data]
  exact ⟨(pad4 i).data ++ '_' :: (md5Hex6 t).data, by simp⟩

/-! ## Lemmas: the partition loop -/

theorem mainLoop_manifest_keys (central : List (String × String))
    (files : Finset String) (i : Nat) (ts : List String) :
    (mainLoop central files i ts).manifest.map Prod.fst = ts := by
  induction ts generalizing i with
  | nil => rfl
  | cons t ts ih =>
    unfold mainLoop
    split <;> simp [ih]

theorem mainLoop_manifest_vals (central : List (String × String))
    (files : Finset String) (i : Nat) (ts : List String) :
    ∀ x ∈ (mainLoop central files i ts).manifest.map Prod.snd,
      ∃ t j, t ∈ ts ∧ x = repo_filename t j := by
  induction ts generalizing i with
  | nil => intro x hx; simp [mainLoop] at hx
  | cons t ts ih =>
    intro x hx
    unfold mainLoop at hx
    split at hx <;>
    · simp only [List.map_cons, List.mem_cons] at hx
      rcases hx with rfl | hx
      · exact ⟨t, i, List.mem_cons_self t ts, rfl⟩
      · obtain ⟨u, j, hu, rfl⟩ := ih (i + 1) x hx
        exact ⟨u, j, List.mem_cons_of_mem t hu, rfl⟩

theorem mainLoop_vals_cover (central : List (String × String))
    (files : Finset String) (i : Nat) (ts : List String) :
    ∀ x ∈ (mainLoop central files i ts).manifest.map Prod.snd,
      x ∈ (mainLoop central files i ts).copied.map Prod.snd
      ∨ x ∈ (mainLoop central files i ts).toGen.map Prod.snd := by
  induction ts generalizing i with
  | nil => intro x hx; simp [mainLoop] at hx
  | cons t ts ih =>
    intro x hx
    unfold mainLoop at hx ⊢
    by_cases hhit : cacheHit central files t = true
    · rw [if_pos hhit] at hx ⊢
      simp only [List.map_cons, List.mem_cons] at hx ⊢
      rcases hx with rfl | hx
      · exact Or.inl (Or.inl rfl)
      · rcases ih (i + 1) x hx with h | h
        · exact Or.inl (Or.inr h)
        · exact Or.inr h
    · rw [if_neg hhit] at hx ⊢
      simp only [List.map_cons, List.mem_cons] at hx ⊢
      rcases hx with rfl | hx
      · exact Or.inr (Or.inl rfl)
      · rcases ih (i + 1) x hx with h | h
        · exact Or.inl h
        · exact Or.inr (Or.inr h)

theorem mainLoop_mem_copied (central : List (String × String))
    (files : Finset String) (i : Nat) (ts : List String) (t : String) :
    t ∈ (mainLoop central files i ts).copied.map Prod.fst
      ↔ t ∈ ts ∧ cacheHit central files t = true := by
  induction ts generalizing i with
  | nil => simp [mainLoop]
  | cons u ts ih =>
    unfold mainLoop
    split <;> rename_i hhit
    · simp only [List.map_cons, List.mem_cons, ih (i + 1)]
      constructor
      · rintro (rfl | ⟨h1, h2⟩)
        · exact ⟨Or.inl rfl, hhit⟩
        · exact ⟨Or.inr h1, h2⟩
      · rintro ⟨rfl | h1, h2⟩
        · exact Or.inl rfl
        · exact Or.inr ⟨h1, h2⟩
    · simp only [ih (i + 1), List.mem_cons]
      constructor
      · rintro ⟨h1, h2⟩
        exact ⟨Or.inr h1, h2⟩
      · rintro ⟨rfl | h1, h2⟩
        · exact absurd h2 (by simp [hhit])
        · exact ⟨h1, h2⟩

theorem mainLoop_mem_toGen (central : List (String × String))
    (files : Finset String) (i : Nat) (ts : List String) (t : String) :
    t ∈ (mainLoop central files i ts).toGen.map Prod.fst
      ↔ t ∈ ts ∧ cacheHit central files t = false := by
  induction ts generalizing i with
  | nil => simp [mainLoop]
  | cons u ts ih =>
    unfold mainLoop
    split <;> rename_i hhit
    · simp only [ih (i + 1), List.mem_cons]
      constructor
      · rintro ⟨h1, h2⟩
        exact ⟨Or.inr h1, h2⟩
      · rintro ⟨rfl | h1, h2⟩
        · exact absurd hhit (by simp [h2])
        · exact ⟨h1, h2⟩
    · simp only [List.map_cons, List.mem_cons, ih (i + 1)]
      constructor
      · rintro (rfl | ⟨h1, h2⟩)
        · exact ⟨Or.inl rfl, by simpa using hhit⟩
        · exact ⟨Or.inr h1, h2⟩
      · rintro ⟨rfl | h1, h2⟩
        · exact Or.inl rfl
        · exact Or.inr ⟨h1, h2⟩

/-! ## Lemmas: the orphan sweep and the admission gate -/

theorem mem_sweep (dir valid : Finset String) (f : String) :
    f ∈ sweep dir valid ↔ f ∈ dir ∧ (pyEndsWith f ".mp3" = false ∨ f ∈ valid) := by
  unfold sweep
  rw [Finset.mem_filter]
  constructor
  · rintro ⟨h1, h2⟩
    refine ⟨h1, ?_⟩
    by_cases hmp3 : pyEndsWith f ".mp3" = true
    · by_cases hv : f ∈ valid
      · exact Or.inr hv
      · exact absurd ⟨hmp3, hv⟩ h2
    · exact Or.inl (by simpa using hmp3)
  · rintro ⟨h1, h2 | h2⟩
    · exact ⟨h1, fun h => by simp [h.1] at h2⟩
    · exact ⟨h1, fun h => h.2 h2⟩

theorem gate_invariant (n : Nat) (st : GateState) (h : GateReachable n st) :
    st.sem + st.inflight = 5
    ∧ st.waiting + st.inflight + st.doneOk + st.doneErr = n := by
  induction h with
  | refl => simp [gateInit]
  | tail _ hstep ih =>
    cases hstep <;> simp_all <;> omega

/-! ## Lemmas: insertion sort (the `sorted(...)` materialization) -/

theorem strLeb_iff (a b : List Char) : strLeb a b = true ↔ ¬ List.Lex (· < ·) b a := by
  induction a generalizing b with
  | nil =>
    cases b with
    | nil => exact iff_of_true rfl (fun h => nomatch h)
    | cons y ys => exact iff_of_true rfl (fun h => nomatch h)
  | cons x xs ih =>
    cases b with
    | nil => exact iff_of_false (by simp [strLeb]) (fun h => h List.Lex.nil)
    | cons y ys =>
      show (if x < y then true else if y < x then false else strLeb xs ys) = true
        ↔ ¬ List.Lex (· < ·) (y :: ys) (x :: xs)
      by_cases hxy : x < y
      · rw [if_pos hxy]
        refine iff_of_true rfl ?_
        intro h
        cases h with
        | rel h1 => exact absurd h1 (asymm hxy)
        | cons h1 => exact lt_irrefl x hxy
      · rw [if_neg hxy]
        by_cases hyx : y < x
        · rw [if_pos hyx]
          exact iff_of_false (by simp) (fun h => h (List.Lex.rel hyx))
        · rw [if_neg hyx]
          have hxy2 : x = y := le_antisymm (le_of_not_lt hyx) (le_of_not_lt hxy)
          subst hxy2
          rw [ih ys]
          constructor
          · intro h hlex
            cases hlex with
            | rel h1 => exact lt_irrefl x h1
            | cons h1 => exact h h1
          · exact fun h hlex => h (List.Lex.cons hlex)

theorem pyLe_iff (a b : String) : pyLe a b = true ↔ a ≤ b := by
  rw [String.le_iff_toList_le, ← not_lt]
  exact strLeb_iff a.data b.data

theorem pyLe_total (a b : String) (h : ¬ pyLe a b = true) : b ≤ a :=
  le_of_not_le (fun hle => h ((pyLe_iff a b).mpr hle))

theorem insertSorted_perm (x : String) (l : List String) :
    List.Perm (insertSorted x l) (x :: l) := by
  induction l with
  | nil => rfl
  | cons y ys ih =>
    unfold insertSorted
    split
    · rfl
    · exact (ih.cons y).trans (List.Perm.swap x y ys)

theorem pySorted_perm (l : List String) : List.Perm (pySorted l) l := by
  induction l with
  | nil => rfl
  | cons x xs ih =>
    show List.Perm (insertSorted x (pySorted xs)) (x :: xs)
    exact (insertSorted_perm x (pySorted xs)).trans (ih.cons x)

theorem insertSorted_sorted (x : String) (l : List String)
    (h : l.Sorted (· ≤ ·)) : (insertSorted x l).Sorted (· ≤ ·) := by
  induction l with
  | nil => simp [insertSorted]
  | cons y ys ih =>
    rw [List.sorted_cons] at h
    unfold insertSorted
    split <;> rename_i hxy
    · rw [List.sorted_cons]
      refine ⟨?_, List.sorted_cons.mpr h⟩
      intro b hb
      rcases List.mem_cons.mp hb with rfl | hb
      · exact (pyLe_iff _ _).mp hxy
      · exact le_trans ((pyLe_iff _ _).mp hxy) (h.1 b hb)
    · rw [List.sorted_cons]
      refine ⟨?_, ih h.2⟩
      intro b hb
      rcases List.mem_cons.mp ((insertSorted_perm x ys).mem_iff.mp hb) with rfl | hb
      · exact pyLe_total _ _ hxy
      · exact h.1 b hb

theorem pySorted_sorted (l : List String) : (pySorted l).Sorted (· ≤ ·) := by
  induction l with
  | nil => simp [pySorted]
  | cons x xs ih => exact insertSorted_sorted x (pySorted xs) ih

theorem cacheHit_nil (files : Finset String) (t : String) :
    cacheHit [] files t = false := rfl

theorem mainLoop_empty_central (files : Finset String) (i : Nat) (ts : List String) :
    (mainLoop [] files i ts).copied = []
    ∧ (mainLoop [] files i ts).toGen.map Prod.fst = ts := by
  induction ts generalizing i with
  | nil => exact ⟨rfl, rfl⟩
  | cons t ts ih =>
    unfold mainLoop
    rw [if_neg (by rw [cacheHit_nil]; simp)]
    simpa using ih (i + 1)

/-! ## The claims -/

set_option maxRecDepth 100000

/-- C2: for every required text present as a key in the reference manifest
whose referenced remote artifact file physically exists in the remote
store, the partition loop copies that artifact (the text lands in the
`copied` list, one `shutil.copy2` per element) and never hands the text to
the synthesis gate (`to_generate`), so the external synthesis capability
is never invoked for it. -/
theorem c2_cache_precedence (central : List (String × String)) (files : Finset String)
    (t cf : String) (i : Nat) (ts : List String)
    (ht : t ∈ ts) (hc : central.lookup t = some cf) (hf : cf ∈ files) :
    t ∈ (mainLoop central files i ts).copied.map Prod.fst
    ∧ t ∉ (mainLoop central files i ts).toGen.map Prod.fst := by
  have hhit : cacheHit central files t = true := by
    unfold cacheHit
    rw [hc]
    exact decide_eq_true hf
  refine ⟨(mainLoop_mem_copied central files i ts t).mpr ⟨ht, hhit⟩, ?_⟩
  intro hmem
  have h2 := (mainLoop_mem_toGen central files i ts t).mp hmem
  rw [hhit] at h2
  exact absurd h2.2 (by simp)

/-- Witness for C2 at the spec's scenario: reference manifest
`{"안녕": "a1.mp3"}` with `a1.mp3` present in the remote store. -/
theorem c2_cache_precedence_witness :
    ("안녕" ∈ (["안녕", "사랑해요"] : List String)
      ∧ ([("안녕", "a1.mp3")] : List (String × String)).lookup "안녕" = some "a1.mp3"
      ∧ "a1.mp3" ∈ ({"a1.mp3"} : Finset String))
    ∧ ("안녕" ∈ (mainLoop [("안녕", "a1.mp3")] {"a1.mp3"} 0 ["안녕", "사랑해요"]).copied.map Prod.fst
      ∧ "안녕" ∉ (mainLoop [("안녕", "a1.mp3")] {"a1.mp3"} 0 ["안녕", "사랑해요"]).toGen.map Prod.fst) :=
  ⟨⟨by decide, by decide, by decide⟩,
    c2_cache_precedence [("안녕", "a1.mp3")] {"a1.mp3"} "안녕" "a1.mp3" 0
      ["안녕", "사랑해요"] (by decide) (by decide) (by decide)⟩

/-- C3: cache resolution is a miss exactly when the text is absent from
the reference manifest, or present but the referenced remote artifact
file is absent from the remote store (the filesystem probe
`os.path.exists(central_path)` fails); in either case the text falls
through to the `to_generate` list — and only to it, not to an error: the
partition loop is total. -/
theorem c3_cache_miss (central : List (String × String)) (files : Finset String)
    (t : String) (i : Nat) (ts : List String) (ht : t ∈ ts)
    (hmiss : central.lookup t = none
      ∨ ∃ cf, central.lookup t = some cf ∧ cf ∉ files) :
    t ∈ (mainLoop central files i ts).toGen.map Prod.fst
    ∧ t ∉ (mainLoop central files i ts).copied.map Prod.fst := by
  have hhit : cacheHit central files t = false := by
    unfold cacheHit
    rcases hmiss with h | ⟨cf, h, hnf⟩
    · rw [h]
    · rw [h]
      exact decide_eq_false hnf
  refine ⟨(mainLoop_mem_toGen central files i ts t).mpr ⟨ht, hhit⟩, ?_⟩
  intro hmem
  have h2 := (mainLoop_mem_copied central files i ts t).mp hmem
  rw [hhit] at h2
  exact absurd h2.2 (by simp)

/-- Witness for C3 at the stale-reference scenario: `"안녕"` is referenced
by the manifest but `a1.mp3` is not on disk in the remote store. -/
theorem c3_cache_miss_witness :
    ("안녕" ∈ (["안녕"] : List String)
      ∧ (([("안녕", "a1.mp3")] : List (String × String)).lookup "안녕" = none
        ∨ ∃ cf, ([("안녕", "a1.mp3")] : List (String × String)).lookup "안녕" = some cf
            ∧ cf ∉ (∅ : Finset String)))
    ∧ ("안녕" ∈ (mainLoop [("안녕", "a1.mp3")] ∅ 0 ["안녕"]).toGen.map Prod.fst
      ∧ "안녕" ∉ (mainLoop [("안녕", "a1.mp3")] ∅ 0 ["안녕"]).copied.map Prod.fst) :=
  ⟨⟨by decide, Or.inr ⟨"a1.mp3", by decide, by decide⟩⟩,
    c3_cache_miss [("안녕", "a1.mp3")] ∅ "안녕" 0 ["안녕"] (by decide)
      (Or.inr ⟨"a1.mp3", by decide, by decide⟩)⟩

/-- C4: in every reachable scheduler state the number of in-flight
synthesis calls never exceeds 5, and `sem + inflight = 5` — the counting
admission gate (`asyncio.Semaphore(5)`): no task starts until a slot is
free (`GateStep.start` requires `sem > 0`), and a slot is returned on
completion of its occupant whether it succeeds (`finishOk`) or fails
(`finishErr`). -/
theorem c4_gate_bound (n : Nat) (st : GateState) (h : GateReachable n st) :
    st.inflight ≤ 5 ∧ st.sem + st.inflight = 5 := by
  have hinv := gate_invariant n st h
  omega

/-- Witness for C4: with 7 tasks, the state after one admission. -/
theorem c4_gate_bound_witness :
    GateReachable 7 ⟨6, 4, 1, 0, 0⟩
    ∧ (GateState.mk 6 4 1 0 0).inflight ≤ 5
    ∧ (GateState.mk 6 4 1 0 0).sem + (GateState.mk 6 4 1 0 0).inflight = 5 := by
  have hreach : GateReachable 7 ⟨6, 4, 1, 0, 0⟩ :=
    Relation.ReflTransGen.single (GateStep.start 6 4 0 0 0)
  have h := c4_gate_bound 7 ⟨6, 4, 1, 0, 0⟩ hreach
  exact ⟨hreach, h.1, h.2⟩

/-- C5 (code bug): a single synthesis failure aborts the run.  With
required texts `["a", "b"]`, no reference store, and synthesis failing
only for `"a"`, the first exception propagates out of `asyncio.gather`:
the run does not complete (`ok = false`), the manifest is never written
and reconciliation never runs (`manifestDoc = none`), even though the
successful sibling's artifact `0001_92eb5f.mp3` was produced.  The claim
(and §4.3/§5/§7 of the spec) requires the batch to continue through
manifest write and reconciliation. -/
theorem c5_failure_aborts_run :
    (mainRun none ∅ ["a", "b"] ∅ (fun t => t == "b")).ok = false
    ∧ (mainRun none ∅ ["a", "b"] ∅ (fun t => t == "b")).manifestDoc = none
    ∧ (mainRun none ∅ ["a", "b"] ∅ (fun t => t == "b")).dir
        = {"0001_92eb5f.mp3"} := by decide

/-- C6 counterexample: at index 10000 the derived identifier is
`10000_0cc175.mp3` — the index field has five digits, so the identifier
does not have the claimed `<4-digit index>_<6-hex>.mp3` shape (which
forces a total length of 15 characters). -/
theorem c6_counterexample :
    ¬ ∃ d h6 : String, d.data.length = 4 ∧ h6.data.length = 6
      ∧ repo_filename "a" 10000 = d ++ "_" ++ h6 ++ ".mp3" := by
  rintro ⟨d, h6, hd, hh, he⟩
  have hlen : (repo_filename "a" 10000).data.length = 16 := by decide
  have h2 := congrArg (fun s => s.data.length) he
  simp only [String.data_append, List.length_append] at h2
  rw [hlen, hd, hh] at h2
  simp at h2

/-- C6 (amended): for indices below 10000 the deriver produces exactly
`<4-digit zero-padded decimal index>_<6-hex fingerprint>.mp3` (the digit
field decodes back to the index), it is a deterministic pure function of
`(text, index)`, and identifiers with distinct indices are always
distinct (at any index, bounded or not). -/
theorem c6_filename_deriver (t u : String) (i j : Nat) (hi : i < 10000) :
    (repo_filename t i = pad4 i ++ "_" ++ md5Hex6 t ++ ".mp3"
      ∧ (pad4 i).data.length = 4
      ∧ (∀ c ∈ (pad4 i).data, c.isDigit = true)
      ∧ val4 (pad4 i).data = i
      ∧ (md5Hex6 t).data.length = 6
      ∧ (∀ c ∈ (md5Hex6 t).data, isHexChar c = true))
    ∧ repo_filename t i = repo_filename t i
    ∧ (i ≠ j → repo_filename t i ≠ repo_filename u j) :=
  ⟨⟨rfl, pad4_len i hi, pad4_digits i, val4_pad4 i, md5Hex6_len t, md5Hex6_hex t⟩,
    rfl, fun hij => repo_filename_inj_index t u i j hij⟩

/-- Witness for C6 at `(안녕, 0)` and `(학교, 1)`. -/
theorem c6_filename_deriver_witness :
    (0 : Nat) < 10000
    ∧ ((repo_filename "안녕" 0 = pad4 0 ++ "_" ++ md5Hex6 "안녕" ++ ".mp3"
        ∧ (pad4 0).data.length = 4
        ∧ (∀ c ∈ (pad4 0).data, c.isDigit = true)
        ∧ val4 (pad4 0).data = 0
        ∧ (md5Hex6 "안녕").data.length = 6
        ∧ (∀ c ∈ (md5Hex6 "안녕").data, isHexChar c = true))
      ∧ repo_filename "안녕" 0 = repo_filename "안녕" 0
      ∧ ((0 : Nat) ≠ 1 → repo_filename "안녕" 0 ≠ repo_filename "학교" 1)) :=
  ⟨by decide, c6_filename_deriver "안녕" "학교" 0 1 (by decide)⟩

/-- C8 counterexample: when the reference manifest file exists but is
unreadable (`json.load` raises), the run aborts instead of treating the
manifest as empty — contrast with the genuinely missing file, where the
same run completes. -/
theorem c8_counterexample :
    (mainRun (some none) ∅ ["a"] ∅ (fun _ => true)).ok = false
    ∧ (mainRun (some none) ∅ ["a"] ∅ (fun _ => true)).manifestDoc = none
    ∧ (mainRun none ∅ ["a"] ∅ (fun _ => true)).ok = true := by decide

/-- C8 (amended): when the reference manifest file is missing,
`central_manifest` stays the empty dict, nothing is copied, and every
required text falls through to synthesis. -/
theorem c8_missing_manifest (files : Finset String) (texts : List String) :
    loadCentral none = Except.ok []
    ∧ (mainLoop [] files 0 texts).copied = []
    ∧ (mainLoop [] files 0 texts).toGen.map Prod.fst = texts :=
  ⟨rfl, (mainLoop_empty_central files 0 texts).1, (mainLoop_empty_central files 0 texts).2⟩

/-- C9 counterexample: the manifest write is `open(mpath, 'w')` followed
by `json.dump` — the path passes through a truncated state, so a reader
during the write can observe content that is neither the prior manifest
nor the complete new document: the write is not atomic from the caller's
perspective. -/
theorem c9_counterexample :
    ¬ atomicFromCallersPerspective "old manifest body" "new manifest body" := by
  intro h
  have h2 := h "" (by simp [manifestWriteStates])
  rcases h2 with h2 | h2 <;> exact absurd h2 (by decide)

/-- C9 (amended): the reconciler persists the manifest at its fixed
location by truncating the file in place and rewriting it; the write
trace ends with exactly the serialized document (the prior manifest is
overwritten), but passes through the truncated empty state, which a
concurrent reader may observe. -/
theorem c9_write_through_truncation (doc : String) :
    (manifestWriteStates doc).getLast? = some doc
    ∧ "" ∈ manifestWriteStates doc
    ∧ ∀ s ∈ manifestWriteStates doc, s = "" ∨ s = doc := by
  refine ⟨rfl, by simp [manifestWriteStates], ?_⟩
  intro s hs
  simpa [manifestWriteStates] using hs

/-- C7: the required-text collection is deduplicated, loses the empty
string, and is materialized as a lexicographically sorted sequence; the
manifest built from it has exactly one entry per required text, keys
inserted in that sorted-text order. -/
theorem c7_sorted_dedup_extraction (v : VocabData) (s : Option SentencesData)
    (l : List String) (central : List (String × String)) (files : Finset String)
    (h : extract_all_texts v s = .ok l) :
    l.Sorted (· ≤ ·) ∧ l.Nodup ∧ "" ∉ l
    ∧ (∀ t, t ∈ l ↔ (t ∈ extractedList v s ∧ t ≠ ""))
    ∧ (mainLoop central files 0 l).manifest.map Prod.fst = l := by
  unfold extract_all_texts at h
  split at h
  · exact absurd h (by simp)
  · injection h with hl
    subst hl
    have hperm := pySorted_perm (((extractedList v s).dedup).filter (fun t => !(t == "")))
    have hmem : ∀ t, t ∈ pySorted (((extractedList v s).dedup).filter (fun t => !(t == "")))
        ↔ (t ∈ extractedList v s ∧ t ≠ "") := by
      intro t
      rw [hperm.mem_iff, List.mem_filter, List.mem_dedup]
      simp
    refine ⟨pySorted_sorted _, ?_, ?_, hmem, mainLoop_manifest_keys central files 0 _⟩
    · exact hperm.nodup_iff.mpr (List.Nodup.filter _ (List.nodup_dedup _))
    · intro hbad
      exact ((hmem "").mp hbad).2 rfl

/-- Sample vocabulary document used by the C7 witness: one flashcard
category with cards `b` and `a`. -/
def sampleVocab : VocabData :=
  ⟨⟨[], [], [], [], []⟩, ⟨[], [], []⟩, ⟨[⟨[⟨"b"⟩, ⟨"a"⟩]⟩]⟩, ⟨[], []⟩, ⟨[]⟩⟩

/-- Witness for C7 on `sampleVocab` (extraction yields the sorted
deduplicated list `["a", "b"]`). -/
theorem c7_sorted_dedup_extraction_witness :
    extract_all_texts sampleVocab none = .ok ["a", "b"]
    ∧ (List.Sorted (· ≤ ·) (["a", "b"] : List String)
      ∧ (["a", "b"] : List String).Nodup ∧ "" ∉ (["a", "b"] : List String)
      ∧ (∀ t, t ∈ (["a", "b"] : List String)
          ↔ (t ∈ extractedList sampleVocab none ∧ t ≠ ""))
      ∧ (mainLoop [] ∅ 0 ["a", "b"]).manifest.map Prod.fst = ["a", "b"]) :=
  ⟨by rfl, c7_sorted_dedup_extraction sampleVocab none ["a", "b"] [] ∅ (by rfl)⟩

/-- C1: after a successful run (reference manifest loads, no synthesis
failures), the run completes, the fresh manifest document is written, the
set of `.mp3` artifact filenames in the store directory equals exactly
the set of manifest values, and in particular the orphan sweep removed
every pre-existing `.mp3` file that is not a manifest value. -/
theorem c1_store_matches_manifest
    (centralFile : Option (Option (List (String × String))))
    (central : List (String × String)) (centralFiles : Finset String)
    (texts : List String) (initDir : Finset String) (synthOk : String → Bool)
    (hload : loadCentral centralFile = .ok central)
    (hsynth : ∀ q ∈ (mainLoop central centralFiles 0 texts).toGen, synthOk q.1 = true) :
    (mainRun centralFile centralFiles texts initDir synthOk).ok = true
    ∧ (mainRun centralFile centralFiles texts initDir synthOk).manifestDoc
        = some (mainLoop central centralFiles 0 texts).manifest
    ∧ (mainRun centralFile centralFiles texts initDir synthOk).dir.filter
        (fun f => pyEndsWith f ".mp3" = true)
        = ((mainLoop central centralFiles 0 texts).manifest.map Prod.snd).toFinset
    ∧ ∀ f ∈ initDir, pyEndsWith f ".mp3" = true
        → f ∉ ((mainLoop central centralFiles 0 texts).manifest.map Prod.snd).toFinset
        → f ∉ (mainRun centralFile centralFiles texts initDir synthOk).dir := by
  have hany : (mainLoop central centralFiles 0 texts).toGen.any (fun q => !synthOk q.1)
      = false := by
    rw [List.any_eq_false]
    intro q hq
    simp [hsynth q hq]
  have hrw : mainRun centralFile centralFiles texts initDir synthOk
      = mainRunOk central centralFiles texts initDir synthOk := by
    rcases centralFile with _ | cf
    · injection hload with h
      subst h
      rfl
    · rcases cf with _ | m
      · exact absurd hload (by simp [loadCentral])
      · injection hload with h
        subst h
        rfl
  rw [hrw]
  unfold mainRunOk
  rw [hany]
  rw [if_neg (by simp : ¬(false = true))]
  refine ⟨rfl, rfl, ?_, ?_⟩
  · apply Finset.ext
    intro x
    simp only [Finset.mem_filter, mem_sweep, Finset.mem_insert, Finset.mem_union,
      List.mem_toFinset]
    constructor
    · rintro ⟨⟨_, hkeep | hkeep⟩, hmp3⟩
      · rw [hmp3] at hkeep
        cases hkeep
      · exact hkeep
    · intro hx
      obtain ⟨t, j, _, rfl⟩ := mainLoop_manifest_vals central centralFiles 0 texts x hx
      refine ⟨⟨?_, Or.inr hx⟩, repo_filename_mp3 t j⟩
      rcases mainLoop_vals_cover central centralFiles 0 texts _ hx with h | h
      · exact Or.inr (Or.inl (Or.inr h))
      · exact Or.inr (Or.inr h)
  · intro f hf hmp3 hnv hmem
    rcases (mem_sweep _ _ f).mp hmem with ⟨_, hkeep | hkeep⟩
    · rw [hmp3] at hkeep
      cases hkeep
    · exact hnv (List.mem_toFinset.mp (List.mem_toFinset.mpr hkeep))

/-- Witness for C1: reference manifest `{"안녕": "a1.mp3"}` with the
artifact present, texts `["안녕", "학교"]`, a stale `.mp3` and an
unrelated text file pre-existing in the store, synthesis succeeding. -/
theorem c1_store_matches_manifest_witness :
    (loadCentral (some (some [("안녕", "a1.mp3")])) = .ok [("안녕", "a1.mp3")]
      ∧ ∀ q ∈ (mainLoop [("안녕", "a1.mp3")] {"a1.mp3"} 0 ["안녕", "학교"]).toGen,
          (fun _ => true) q.1 = true)
    ∧ ((mainRun (some (some [("안녕", "a1.mp3")])) {"a1.mp3"} ["안녕", "학교"]
          {"stale_ffffff.mp3", "notes.txt"} (fun _ => true)).ok = true
      ∧ (mainRun (some (some [("안녕", "a1.mp3")])) {"a1.mp3"} ["안녕", "학교"]
          {"stale_ffffff.mp3", "notes.txt"} (fun _ => true)).manifestDoc
          = some (mainLoop [("안녕", "a1.mp3")] {"a1.mp3"} 0 ["안녕", "학교"]).manifest
      ∧ (mainRun (some (some [("안녕", "a1.mp3")])) {"a1.mp3"} ["안녕", "학교"]
          {"stale_ffffff.mp3", "notes.txt"} (fun _ => true)).dir.filter
          (fun f => pyEndsWith f ".mp3" = true)
          = ((mainLoop [("안녕", "a1.mp3")] {"a1.mp3"} 0 ["안녕", "학교"]).manifest.map
              Prod.snd).toFinset
      ∧ ∀ f ∈ ({"stale_ffffff.mp3", "notes.txt"} : Finset String),
          pyEndsWith f ".mp3" = true
          → f ∉ ((mainLoop [("안녕", "a1.mp3")] {"a1.mp3"} 0 ["안녕", "학교"]).manifest.map
              Prod.snd).toFinset
          → f ∉ (mainRun (some (some [("안녕", "a1.mp3")])) {"a1.mp3"} ["안녕", "학교"]
              {"stale_ffffff.mp3", "notes.txt"} (fun _ => true)).dir) :=
  ⟨⟨by rfl, by decide⟩,
    c1_store_matches_manifest (some (some [("안녕", "a1.mp3")])) [("안녕", "a1.mp3")]
      {"a1.mp3"} ["안녕", "학교"] {"stale_ffffff.mp3", "notes.txt"} (fun _ => true)
      (by rfl) (by decide)⟩

/-- C10: the orphan sweep keeps a directory entry exactly when it is not
(an `.mp3` name outside the fresh manifest's values); equivalently it only
ever deletes entries ending in `.mp3` that are not manifest values, and
every other entry — in particular `manifest.json`, which does not end in
`.mp3` — survives reconciliation untouched. -/
theorem c10_sweep_frame (dir valid : Finset String) (f : String) :
    (f ∈ sweep dir valid ↔ f ∈ dir ∧ (pyEndsWith f ".mp3" = false ∨ f ∈ valid))
    ∧ pyEndsWith "manifest.json" ".mp3" = false :=
  ⟨mem_sweep dir valid f, by decide⟩


